import Mathlib

/-!
Shallow embedding of `src/app1.py` (waterfirst/patent_analysis), a Streamlit
dashboard that queries the PatentsView API, normalizes the JSON records into a
six-column table, renders yearly/country charts and a word cloud, and offers a
timestamped CSV download.

External collaborators (the HTTP client, pandas date parsing and
`value_counts`, the NLTK stopword list, the CSV reader used to state the
round-trip property, and wall-clock time) are modelled as explicit parameters
or as definitions whose doc comments say what they model; everything else is
translated directly from the Python source.
-/

/- ================= Query builder and fetcher (app1.py lines 21-48) ======== -/

/-- One `\x7b"_text_phrase": \x7b field: phrase \x7d\x7d` predicate of the
PatentsView query language. -/
structure PhraseMatch where
  field : String
  phrase : String
deriving DecidableEq, Repr

/-- The query object built on line 22: a single `_and` of phrase matches. -/
structure Query where
  _and : List PhraseMatch
deriving DecidableEq, Repr

/-- Line 22: `\x7b"_and": [\x7b"_text_phrase": \x7b"patent_abstract": kw\x7d\x7d for kw in keywords]\x7d`. -/
def build_query (keywords : List String) : Query :=
  ⟨keywords.map fun kw => ⟨"patent_abstract", kw⟩⟩

/-- Lines 24-31: the fixed output-field list `f`. -/
def requested_fields : List String :=
  ["patent_number", "patent_date", "patent_title", "patent_abstract",
   "patent_firstnamed_assignee_country", "patent_type"]

/-- The HTTP GET request assembled on lines 33-40: URL, API-key header, and
the three JSON-encoded parameters `q`, `f`, `o`. -/
structure Request where
  url : String
  api_key_header : String
  q : Query
  f : List String
  per_page : Nat
deriving DecidableEq, Repr

/-- A raw patent record of the API response: the six optional keys read by
`process_patent_data`.  `none` models an absent key. -/
structure RawPatent where
  patent_number : Option String
  patent_date : Option String
  patent_title : Option String
  patent_abstract : Option String
  patent_firstnamed_assignee_country : Option String
  patent_type : Option String
deriving DecidableEq, Repr

/-- The parsed response body.  `patents := none` models a missing or null
`patents` entry; `some l` a present list. -/
structure RawResult where
  patents : Option (List RawPatent)
deriving DecidableEq, Repr

/-- Outcome of the network call on lines 43-44: either a 2xx response with a
parsed JSON body, or a `requests.exceptions.RequestException` (network-layer
failure or the non-2xx raised by `raise_for_status`) carrying its message. -/
inductive FetchOutcome where
  | ok (body : RawResult)
  | netError (msg : String)
deriving DecidableEq, Repr

/-- What `search_patents` produces: its return value plus the list of
messages written to the UI via `st.error`. -/
structure SearchResult where
  result : RawResult
  errors : List String
deriving DecidableEq, Repr

/-- Lines 21-40: the request `search_patents` sends (query built on line 22,
fields on lines 24-31, URL/header/params on lines 33-40). -/
def search_patents_request (keywords : List String) (per_page : Nat := 1000) : Request :=
  { url := "https://api.patentsview.org/patents/query"
    api_key_header := "X-Api-Key"
    q := build_query keywords
    f := requested_fields
    per_page := per_page }

/-- Lines 21-48: `search_patents`.  The network is an explicit `fetch`
parameter mapping the request to its outcome.  A `RequestException` is caught
(lines 46-48): `st.error(f"API Error: ...")` is recorded and
`\x7b"patents": []\x7d` is returned; no exception propagates. -/
def search_patents (keywords : List String) (fetch : Request → FetchOutcome)
    (per_page : Nat := 1000) : SearchResult :=
  match fetch (search_patents_request keywords per_page) with
  | .ok body => { result := body, errors := [] }
  | .netError e => { result := { patents := some [] }, errors := ["API Error: " ++ e] }

/- ================= Record normalizer (app1.py lines 51-67) ================ -/

/-- A normalized row: the fixed six columns built on lines 57-64
(`Patent Number`, `Date`, `Title`, `Country`, `Type`, `Abstract`). -/
structure Row where
  patentNumber : String
  date : String
  title : String
  country : String
  ptype : String
  abstract : String
deriving DecidableEq, Repr

/-- Lines 57-64: one `patent_entry`, each field `patent.get(key, "")`. -/
def mk_row (p : RawPatent) : Row :=
  { patentNumber := p.patent_number.getD ""
    date := p.patent_date.getD ""
    title := p.patent_title.getD ""
    country := p.patent_firstnamed_assignee_country.getD ""
    ptype := p.patent_type.getD ""
    abstract := p.patent_abstract.getD "" }

/-- Lines 51-67: `process_patent_data`.  `if not data.get("patents")` (missing,
null, or empty list) yields the empty table; otherwise one row per record. -/
def process_patent_data (data : RawResult) : List Row :=
  match data.patents with
  | none => []
  | some [] => []
  | some ps => ps.map mk_row

/- ================= Keyword splitting in main (app1.py line 128) =========== -/

/-- Python `str.split(",")`: fields between commas, empties kept. -/
def pySplitComma : List Char → List (List Char)
  | [] => [[]]
  | c :: rest =>
    if c = ',' then [] :: pySplitComma rest
    else
      match pySplitComma rest with
      | [] => [[c]]
      | f :: fs => (c :: f) :: fs

/-- Python `str.strip()`: drop whitespace from both ends. -/
def pyStrip (cs : List Char) : List Char :=
  ((cs.dropWhile Char.isWhitespace).reverse.dropWhile Char.isWhitespace).reverse

/-- Line 128: `keywords = [k.strip() for k in keyword_input.split(",")]`. -/
def main_keywords (keyword_input : String) : List String :=
  (pySplitComma keyword_input.data).map fun cs => String.mk (pyStrip cs)

/- ================= Word corpus (app1.py lines 94-106) ===================== -/

/-- Characters kept by `re.sub(r"[^\w\s]", "", ...)` on line 103: word
characters (alphanumeric or underscore) and whitespace. -/
def keepChar (c : Char) : Bool :=
  c.isAlphanum || c = '_' || c.isWhitespace

/-- Python no-argument `str.split()`: split on whitespace runs, drop empties.
`cur` accumulates the current word in reverse. -/
def pySplitWsAux (cur : List Char) : List Char → List (List Char)
  | [] => if cur = [] then [] else [cur.reverse]
  | c :: rest =>
    if c.isWhitespace then
      if cur = [] then pySplitWsAux [] rest
      else cur.reverse :: pySplitWsAux [] rest
    else pySplitWsAux (c :: cur) rest

/-- Python no-argument `str.split()` on a char list. -/
def pySplitWs (cs : List Char) : List (List Char) :=
  pySplitWsAux [] cs

/-- Python `" ".join`: single-space separators. -/
def joinSpace : List String → List Char
  | [] => []
  | [s] => s.data
  | s :: rest => s.data ++ ' ' :: joinSpace rest

/-- Line 96: the fixed domain-specific stopwords added on lines 96-97. -/
def additional_stop_words : List String :=
  ["method", "device", "system", "apparatus", "invention"]

/-- Lines 99-105: join the abstracts with spaces, lowercase, strip non-word
non-whitespace characters, split on whitespace, drop stopwords.  `stop_words`
is the full stopword collection (NLTK English list plus the domain words);
membership in the Python `set` is membership in this list. -/
def word_tokens (stop_words : List String) (abstracts : List String) : List String :=
  let text := (joinSpace abstracts).map Char.toLower
  let cleaned := text.filter keepChar
  let words := (pySplitWs cleaned).map String.mk
  words.filter fun w => !(stop_words.contains w)

/-- The corpus construction applied to a table: line 100 takes the Abstract
column (`fillna("")` is the identity on the already-string column produced by
`process_patent_data`). -/
def word_corpus (english_stop_words : List String) (df : List Row) : List String :=
  word_tokens (english_stop_words ++ additional_stop_words) (df.map Row.abstract)

/- ================= value_counts and top-10 countries (lines 75, 85) ======= -/

/-- Distinct values of a list in order of first appearance (`seen`
accumulates values already emitted). -/
def uniqueKeysAux [DecidableEq α] (seen : List α) : List α → List α
  | [] => []
  | x :: xs =>
    if x ∈ seen then uniqueKeysAux seen xs
    else x :: uniqueKeysAux (x :: seen) xs

/-- Stable insertion of one element into a list sorted by `le`. -/
def insertBy (le : α → α → Bool) (x : α) : List α → List α
  | [] => [x]
  | y :: ys => if le x y then x :: y :: ys else y :: insertBy le x ys

/-- Stable insertion sort by `le`. -/
def sortBy (le : α → α → Bool) : List α → List α
  | [] => []
  | x :: xs => insertBy le x (sortBy le xs)

/-- Modelled from the spec: pandas `Series.value_counts()` (an external
library call on lines 75 and 85) — "group rows by value, count rows per
value", sorted by count descending, ties kept in the grouping's stable
first-appearance order. -/
def value_counts [DecidableEq α] (xs : List α) : List (α × Nat) :=
  sortBy (fun a b => b.2 ≤ a.2) ((uniqueKeysAux [] xs).map fun v => (v, xs.count v))

/-- Line 85: `df["Country"].value_counts().head(10)`. -/
def top10_countries (df : List Row) : List (String × Nat) :=
  (value_counts (df.map Row.country)).take 10

/-- Line 75: `df["Year"].value_counts().sort_index()` — per-year counts
sorted by year ascending. -/
def yearly_counts (years : List Int) : List (Int × Nat) :=
  sortBy (fun a b => a.1 ≤ b.1) (value_counts years)

/- ================= Year derivation and create_visualizations ============== -/

/-- Modelled from the spec: pandas `pd.to_datetime` on line 72 (an external
library call) — "parse each row's Date into a calendar year; fails the whole
render step if any Date is unparsable".  Dates are the API's ISO-like
`YYYY-MM-DD` strings; anything else is unparsable. -/
def parse_year (s : String) : Option Int :=
  match s.data with
  | [y1, y2, y3, y4, d1, m1, m2, d2, a1, a2] =>
    if y1.isDigit && y2.isDigit && y3.isDigit && y4.isDigit &&
       d1 = '-' && m1.isDigit && m2.isDigit && d2 = '-' &&
       a1.isDigit && a2.isDigit &&
       (10 * (m1.toNat - 48) + (m2.toNat - 48) ≥ 1) &&
       (10 * (m1.toNat - 48) + (m2.toNat - 48) ≤ 12) &&
       (10 * (a1.toNat - 48) + (a2.toNat - 48) ≥ 1) &&
       (10 * (a1.toNat - 48) + (a2.toNat - 48) ≤ 31) then
      some (Int.ofNat (1000 * (y1.toNat - 48) + 100 * (y2.toNat - 48) +
            10 * (y3.toNat - 48) + (y4.toNat - 48)))
    else none
  | _ => none

/-- A row of the dataframe after line 72 added the `Year` column: the six
original columns plus the derived year. -/
structure RowY where
  base : Row
  year : Int
deriving DecidableEq, Repr

/-- What `create_visualizations` leaves behind: the mutated dataframe (Year
column added) and the data handed to the three presentation calls. -/
structure RenderOutput where
  table : List RowY
  yearly : List (Int × Nat)
  countries : List (String × Nat)
  cloud_tokens : List String
deriving DecidableEq, Repr

/-- Lines 70-117: `create_visualizations`.  Line 72 derives the Year column
first (`pd.to_datetime`, modelled by the `py` parameter); an unparsable Date
raises, which the embedding makes an `Except.error` that produces none of the
later outputs.  On success the yearly chart (line 75), country chart
(line 85) and word-cloud token stream (lines 94-106) are computed from the
mutated table. -/
def create_visualizations (py : String → Option Int)
    (english_stop_words : List String) (df : List Row) : Except String RenderOutput :=
  match df.mapM (fun r => (py r.date).map fun y => RowY.mk r y) with
  | none => .error "unparsable date in Date column"
  | some rows =>
    .ok { table := rows
          yearly := yearly_counts (rows.map RowY.year)
          countries := top10_countries df
          cloud_tokens := word_corpus english_stop_words df }

/- ================= CSV rendering and parsing (lines 144-151) ============== -/

/-- Does a CSV field need quoting?  Python's `csv` writer in minimal-quoting
mode quotes a field containing the delimiter, the quote character, or a line
break. -/
def needsQuoting (s : String) : Bool :=
  s.data.any fun c => c = ',' || c = '"' || c = '\n' || c = '\r'

/-- Double every quote character (CSV quote escaping). -/
def escapeQuotes : List Char → List Char
  | [] => []
  | c :: cs => if c = '"' then '"' :: '"' :: escapeQuotes cs else c :: escapeQuotes cs

/-- Render one CSV field, quoting it only when needed. -/
def renderField (s : String) : List Char :=
  if needsQuoting s then '"' :: (escapeQuotes s.data ++ ['"']) else s.data

/-- Render one CSV record: fields joined by commas. -/
def renderRow : List String → List Char
  | [] => []
  | [f] => renderField f
  | f :: rest => renderField f ++ ',' :: renderRow rest

/-- Render a CSV text: one line per record, each terminated by a newline
(pandas `to_csv` line terminator). -/
def renderCSV : List (List String) → List Char
  | [] => []
  | r :: rs => renderRow r ++ '\n' :: renderCSV rs

/-- The header of the normalized six-column table. -/
def header6 : List String :=
  ["Patent Number", "Date", "Title", "Country", "Type", "Abstract"]

/-- The fields of a normalized row, in column order. -/
def row_fields (r : Row) : List String :=
  [r.patentNumber, r.date, r.title, r.country, r.ptype, r.abstract]

/-- Line 145 shape `df.to_csv(index=False)` on the normalized six-column table. -/
def to_csv (df : List Row) : String :=
  String.mk (renderCSV (header6 :: df.map row_fields))

/-- The header after line 72 added the Year column: six columns plus `Year`. -/
def header7 : List String :=
  ["Patent Number", "Date", "Title", "Country", "Type", "Abstract", "Year"]

/-- The fields of a Year-augmented row; pandas renders the int64 year with
`toString`. -/
def rowy_fields (r : RowY) : List String :=
  row_fields r.base ++ [toString r.year]

/-- Line 145: `df.to_csv(index=False)` on the Year-augmented table. -/
def to_csv_y (df : List RowY) : String :=
  String.mk (renderCSV (header7 :: df.map rowy_fields))

/-- Modelled from the spec: consume a quoted CSV field body — the spec's
round-trip property re-parses the exported CSV text "as strings".  Returns
the field contents accumulated onto `field` and the text after the closing
quote; a doubled quote is an escaped quote character. -/
def parseQuoted (field : List Char) : List Char → List Char × List Char
  | [] => (field, [])
  | c :: rest =>
    if c = '"' then
      match rest with
      | [] => (field, [])
      | c2 :: rest2 => if c2 = '"' then parseQuoted (field ++ ['"']) rest2 else (field, rest)
    else parseQuoted (field ++ [c]) rest

/-- The remainder returned by `parseQuoted` is no longer than its input. -/
theorem parseQuoted_snd_le (n : Nat) :
    ∀ field cs : List Char, cs.length ≤ n → (parseQuoted field cs).2.length ≤ cs.length := by
  induction n with
  | zero =>
    intro field cs h
    have : cs = [] := List.length_eq_zero.mp (Nat.le_zero.mp h)
    subst this
    simp [parseQuoted]
  | succ n ih =>
    intro field cs h
    match cs with
    | [] => simp [parseQuoted]
    | [c] => by_cases hc : c = '"' <;> simp [parseQuoted, hc]
    | c :: c2 :: rest2 =>
      by_cases hc : c = '"'
      · by_cases hc2 : c2 = '"'
        · have hlen : rest2.length ≤ n := by
            simp only [List.length_cons] at h
            omega
          have hrec := ih (field ++ ['"']) rest2 hlen
          simp only [parseQuoted, hc, hc2, if_true, List.length_cons]
          omega
        · simp [parseQuoted, hc, hc2]
      · have hlen : (c2 :: rest2).length ≤ n := by
          simp only [List.length_cons] at h ⊢
          omega
        have hrec := ih (field ++ [c]) (c2 :: rest2) hlen
        simp only [List.length_cons] at hrec
        simp only [parseQuoted, hc, if_false, List.length_cons]
        omega

/-- Modelled from the spec: a standard CSV parser over the exported text,
recovering rows of string fields — the spec's round-trip property re-parses
the CSV "as strings".  `field` is the field being read, `row` the fields of
the record being read. -/
def parseRows (field : List Char) (row : List String) (cs : List Char) : List (List String) :=
  match cs with
  | [] => if field = [] ∧ row = [] then [] else [row ++ [String.mk field]]
  | c :: rest =>
    if c = ',' then parseRows [] (row ++ [String.mk field]) rest
    else if c = '\n' then (row ++ [String.mk field]) :: parseRows [] [] rest
    else if c = '"' then parseRows (parseQuoted field rest).1 row (parseQuoted field rest).2
    else parseRows (field ++ [c]) row rest
termination_by cs.length
decreasing_by
  · simp only [List.length_cons]
    omega
  · simp only [List.length_cons]
    omega
  · have h := parseQuoted_snd_le rest.length field rest (Nat.le_refl _)
    simp only [List.length_cons]
    omega
  · simp only [List.length_cons]
    omega

/-- Parse a CSV text into its records of string fields. -/
def parse_csv (s : String) : List (List String) :=
  parseRows [] [] s.data

/- ================= Timestamp, download and main (lines 120-151) =========== -/

/-- The units of the digit at a given decimal position, as a character. -/
def digitChar (k : Nat) : Char := Char.ofNat (48 + k % 10)

/-- Two zero-padded decimal digits, as `strftime` renders `%m`/`%d`/`%H`/`%M`/`%S`. -/
def digits2 (n : Nat) : List Char := [digitChar (n / 10), digitChar n]

/-- Four zero-padded decimal digits, as `strftime` renders `%Y` for years
0-9999 (the domain of `datetime.now()` in practice). -/
def digits4 (n : Nat) : List Char :=
  [digitChar (n / 1000), digitChar (n / 100), digitChar (n / 10), digitChar n]

/-- A wall-clock instant, the six components `strftime` reads. -/
structure Timestamp where
  year : Nat
  month : Nat
  day : Nat
  hour : Nat
  minute : Nat
  second : Nat
deriving DecidableEq, Repr

/-- The date part of line 144's `strftime("%Y%m%d_%H%M%S")`. -/
def date_str (t : Timestamp) : String :=
  String.mk (digits4 t.year ++ digits2 t.month ++ digits2 t.day)

/-- The time part of line 144's `strftime("%Y%m%d_%H%M%S")`. -/
def time_str (t : Timestamp) : String :=
  String.mk (digits2 t.hour ++ digits2 t.minute ++ digits2 t.second)

/-- The download artifact of lines 146-151: file name, bytes, MIME type. -/
structure Download where
  file_name : String
  data : ByteArray
  mime : String

/-- Lines 144-151: timestamped file name `patents_<YYYYMMDD_HHMMSS>.csv`,
UTF-8 encoded CSV of the (Year-augmented) dataframe. -/
def mk_download (now : Timestamp) (df : List RowY) : Download :=
  { file_name := "patents_" ++ date_str now ++ "_" ++ time_str now ++ ".csv"
    data := (to_csv_y df).toUTF8
    mime := "text/csv" }

/-- Lines 140-151 of `main` for a non-empty table: run
`create_visualizations` (which adds the Year column to the shared dataframe)
and then export that same dataframe; a fault in the render step aborts the
export. -/
def main_render (py : String → Option Int) (english_stop_words : List String)
    (now : Timestamp) (df : List Row) : Except String (RenderOutput × Download) :=
  match create_visualizations py english_stop_words df with
  | .error e => .error e
  | .ok out => .ok (out, mk_download now out.table)

/- ======================= Helper lemmas ==================================== -/

/-- Unfolding `process_patent_data` on a present `patents` list: exactly the row map. -/
theorem process_patent_data_some (ps : List RawPatent) :
    process_patent_data ⟨some ps⟩ = ps.map mk_row := by
  match ps with
  | [] => rfl
  | p :: ps => rfl

/-- The split `pySplitComma` never returns the empty list. -/
theorem pySplitComma_ne_nil (cs : List Char) : pySplitComma cs ≠ [] := by
  match cs with
  | [] => simp [pySplitComma]
  | c :: rest =>
    by_cases hc : c = ','
    · simp [pySplitComma, hc]
    · have h := pySplitComma_ne_nil rest
      simp only [pySplitComma, if_neg hc]
      match hps : pySplitComma rest with
      | [] => exact absurd hps h
      | f :: fs => simp

/-- One field per comma-separated piece: `split(",")` yields one more piece
than there are commas. -/
theorem pySplitComma_length (cs : List Char) :
    (pySplitComma cs).length = cs.count ',' + 1 := by
  match cs with
  | [] => simp [pySplitComma]
  | c :: rest =>
    have ih := pySplitComma_length rest
    by_cases hc : c = ','
    · subst hc
      simp [pySplitComma, List.count_cons, ih]
    · simp only [pySplitComma, if_neg hc]
      match hps : pySplitComma rest with
      | [] => exact absurd hps (pySplitComma_ne_nil rest)
      | f :: fs =>
        rw [hps] at ih
        simp only [List.length_cons] at ih ⊢
        rw [List.count_cons]
        simp [hc, ih]

/-- Membership in `uniqueKeysAux`: the values of the list not already seen. -/
theorem mem_uniqueKeysAux [DecidableEq α] (xs : List α) :
    ∀ (seen : List α) (y : α), y ∈ uniqueKeysAux seen xs ↔ y ∈ xs ∧ y ∉ seen := by
  induction xs with
  | nil => intro seen y; simp [uniqueKeysAux]
  | cons x xs ih =>
    intro seen y
    by_cases hx : x ∈ seen
    · rw [uniqueKeysAux, if_pos hx, ih]
      constructor
      · rintro ⟨h1, h2⟩
        exact ⟨List.mem_cons_of_mem x h1, h2⟩
      · rintro ⟨h1, h2⟩
        rcases List.mem_cons.mp h1 with h | h
        · subst h; exact absurd hx h2
        · exact ⟨h, h2⟩
    · rw [uniqueKeysAux, if_neg hx]
      simp only [List.mem_cons, ih]
      constructor
      · rintro (h | ⟨h1, h2⟩)
        · subst h; exact ⟨Or.inl rfl, hx⟩
        · exact ⟨Or.inr h1, fun hy => h2 (Or.inr hy)⟩
      · rintro ⟨h1 | h1, h2⟩
        · exact Or.inl h1
        · by_cases hyx : y = x
          · exact Or.inl hyx
          · exact Or.inr ⟨h1, fun hmem => hmem.elim hyx h2⟩

/-- The accumulator pass `uniqueKeysAux` emits no duplicates. -/
theorem nodup_uniqueKeysAux [DecidableEq α] (xs : List α) :
    ∀ seen : List α, (uniqueKeysAux seen xs).Nodup := by
  induction xs with
  | nil => intro seen; simp [uniqueKeysAux]
  | cons x xs ih =>
    intro seen
    by_cases hx : x ∈ seen
    · rw [uniqueKeysAux, if_pos hx]; exact ih seen
    · rw [uniqueKeysAux, if_neg hx]
      refine List.Nodup.cons ?_ (ih (x :: seen))
      intro hmem
      exact ((mem_uniqueKeysAux xs (x :: seen) x).mp hmem).2 (List.mem_cons_self x seen)

/-- Inserting with `insertBy` is a permutation of consing. -/
theorem insertBy_perm (le : α → α → Bool) (x : α) :
    ∀ l : List α, (insertBy le x l).Perm (x :: l) := by
  intro l
  induction l with
  | nil => simp [insertBy]
  | cons y ys ih =>
    by_cases h : le x y
    · simp [insertBy, h]
    · rw [insertBy, if_neg h]
      exact (ih.cons y).trans (List.Perm.swap x y ys)

/-- Sorting with `sortBy` permutes its input. -/
theorem sortBy_perm (le : α → α → Bool) :
    ∀ l : List α, (sortBy le l).Perm l := by
  intro l
  induction l with
  | nil => simp [sortBy]
  | cons x xs ih =>
    exact (insertBy_perm le x (sortBy le xs)).trans (ih.cons x)

/-- The counts table `value_counts` permutes the list of first-appearance keys paired with
their exact counts. -/
theorem value_counts_perm [DecidableEq α] (xs : List α) :
    (value_counts xs).Perm ((uniqueKeysAux [] xs).map fun v => (v, xs.count v)) :=
  sortBy_perm _ _

/-- Every entry of `value_counts` carries the exact occurrence count of its
key. -/
theorem value_counts_count [DecidableEq α] (xs : List α) (p : α × Nat)
    (hp : p ∈ value_counts xs) : p.2 = xs.count p.1 := by
  have hmem := (value_counts_perm xs).mem_iff.mp hp
  rcases List.mem_map.mp hmem with ⟨v, _, hv⟩
  rw [← hv]

/-- The keys of `value_counts` are pairwise distinct. -/
theorem value_counts_keys_nodup [DecidableEq α] (xs : List α) :
    ((value_counts xs).map Prod.fst).Nodup := by
  have hperm : ((value_counts xs).map Prod.fst).Perm
      (((uniqueKeysAux ([] : List α) xs).map fun v => (v, xs.count v)).map Prod.fst) :=
    (value_counts_perm xs).map Prod.fst
  have heq : ((uniqueKeysAux ([] : List α) xs).map fun v => (v, xs.count v)).map Prod.fst
      = uniqueKeysAux [] xs := by
    generalize uniqueKeysAux ([] : List α) xs = l
    induction l with
    | nil => rfl
    | cons a l ih => simp only [List.map_cons, ih]
  rw [heq] at hperm
  exact hperm.nodup_iff.mpr (nodup_uniqueKeysAux xs [])

/-- Step lemma: an ordinary character inside a quoted field is accumulated. -/
theorem parseQuoted_cons (field : List Char) (c : Char) (rest : List Char) (hc : c ≠ '"') :
    parseQuoted field (c :: rest) = parseQuoted (field ++ [c]) rest := by
  match rest with
  | [] => simp [parseQuoted, hc]
  | c2 :: rest2 => simp [parseQuoted, hc]

/-- Step lemma: a doubled quote inside a quoted field is an escaped quote. -/
theorem parseQuoted_quote_quote (field : List Char) (rest2 : List Char) :
    parseQuoted field ('"' :: '"' :: rest2) = parseQuoted (field ++ ['"']) rest2 := by
  simp [parseQuoted]

/-- Step lemma: a lone quote closes the quoted field. -/
theorem parseQuoted_quote_close (field : List Char) (c2 : Char) (rest2 : List Char)
    (hc2 : c2 ≠ '"') :
    parseQuoted field ('"' :: c2 :: rest2) = (field, c2 :: rest2) := by
  simp [parseQuoted, hc2]

/-- Consuming a quote-escaped field body: `parseQuoted` recovers exactly the
original characters and stops at the closing quote. -/
theorem parseQuoted_escape (s : List Char) :
    ∀ (field : List Char) (sep : Char) (r : List Char), sep ≠ '"' →
      parseQuoted field (escapeQuotes s ++ '"' :: sep :: r) = (field ++ s, sep :: r) := by
  induction s with
  | nil =>
    intro field sep r hsep
    rw [escapeQuotes]
    simp only [List.nil_append]
    rw [parseQuoted_quote_close field sep r hsep]
    simp
  | cons c cs ih =>
    intro field sep r hsep
    by_cases hc : c = '"'
    · subst hc
      rw [escapeQuotes, if_pos rfl]
      simp only [List.cons_append]
      rw [parseQuoted_quote_quote, ih (field ++ ['"']) sep r hsep]
      simp
    · rw [escapeQuotes, if_neg hc]
      simp only [List.cons_append]
      rw [parseQuoted_cons field c _ hc, ih (field ++ [c]) sep r hsep]
      simp

/-- Step lemma: `parseRows` on the empty text. -/
theorem parseRows_nil (field : List Char) (row : List String) :
    parseRows field row [] = if field = [] ∧ row = [] then [] else [row ++ [String.mk field]] := by
  simp [parseRows]

/-- Step lemma: a comma ends the current field. -/
theorem parseRows_comma (field : List Char) (row : List String) (rest : List Char) :
    parseRows field row (',' :: rest) = parseRows [] (row ++ [String.mk field]) rest := by
  simp [parseRows]

/-- Step lemma: a newline ends the current record. -/
theorem parseRows_newline (field : List Char) (row : List String) (rest : List Char) :
    parseRows field row ('\n' :: rest) = (row ++ [String.mk field]) :: parseRows [] [] rest := by
  simp [parseRows]

/-- Step lemma: a quote hands the text to `parseQuoted`. -/
theorem parseRows_quote (field : List Char) (row : List String) (rest : List Char) :
    parseRows field row ('"' :: rest)
      = parseRows (parseQuoted field rest).1 row (parseQuoted field rest).2 := by
  simp [parseRows]

/-- Step lemma: an ordinary character is accumulated into the current field. -/
theorem parseRows_other (field : List Char) (row : List String) (c : Char) (rest : List Char)
    (h1 : c ≠ ',') (h2 : c ≠ '\n') (h3 : c ≠ '"') :
    parseRows field row (c :: rest) = parseRows (field ++ [c]) row rest := by
  simp [parseRows, h1, h2, h3]

/-- A run of ordinary characters is consumed into the current field. -/
theorem parseRows_plain (g : List Char) (hg : ∀ c ∈ g, c ≠ ',' ∧ c ≠ '\n' ∧ c ≠ '"') :
    ∀ (field : List Char) (row : List String) (rest : List Char),
      parseRows field row (g ++ rest) = parseRows (field ++ g) row rest := by
  induction g with
  | nil => intro field row rest; simp
  | cons c g ih =>
    intro field row rest
    obtain ⟨h1, h2, h3⟩ := hg c (List.mem_cons_self c g)
    have hg' : ∀ c ∈ g, c ≠ ',' ∧ c ≠ '\n' ∧ c ≠ '"' :=
      fun d hd => hg d (List.mem_cons_of_mem c hd)
    simp only [List.cons_append]
    rw [parseRows_other field row c _ h1 h2 h3, ih hg' (field ++ [c]) row rest]
    simp

/-- A field for which `needsQuoting` is false contains no special character. -/
theorem not_needsQuoting_plain (f : String) (h : needsQuoting f = false) :
    ∀ c ∈ f.data, c ≠ ',' ∧ c ≠ '\n' ∧ c ≠ '"' := by
  intro c hc
  have hfc := List.any_eq_false.mp h c hc
  simp only [Bool.not_eq_true, Bool.or_eq_false_iff, decide_eq_false_iff_not] at hfc
  exact ⟨hfc.1.1.1, hfc.1.2, hfc.1.1.2⟩

/-- Consuming one rendered field: `parseRows` recovers exactly the original
field characters and stops at the separator. -/
theorem parseRows_renderField (f : String) (row : List String) (sep : Char) (r : List Char)
    (hsep1 : sep ≠ '"') :
    parseRows [] row (renderField f ++ sep :: r) = parseRows f.data row (sep :: r) := by
  by_cases hq : needsQuoting f
  · rw [renderField, if_pos hq]
    have harr : ('"' :: (escapeQuotes f.data ++ ['"'])) ++ sep :: r
        = '"' :: (escapeQuotes f.data ++ '"' :: sep :: r) := by simp
    rw [harr, parseRows_quote, parseQuoted_escape f.data [] sep r hsep1]
    simp
  · rw [renderField, if_neg hq]
    have := parseRows_plain f.data (not_needsQuoting_plain f (Bool.eq_false_iff.mpr hq)) [] row (sep :: r)
    simpa using this

/-- Unfolding `renderRow` on a one-field record. -/
theorem renderRow_single (f : String) : renderRow [f] = renderField f := rfl

/-- Unfolding `renderRow` on a record of two or more fields. -/
theorem renderRow_cons_cons (f f2 : String) (fs2 : List String) :
    renderRow (f :: f2 :: fs2) = renderField f ++ ',' :: renderRow (f2 :: fs2) := rfl

/-- Consuming one rendered record: `parseRows` recovers the record's fields. -/
theorem parseRows_renderRow (fs : List String) (hfs : fs ≠ []) :
    ∀ (row : List String) (r : List Char),
      parseRows [] row (renderRow fs ++ '\n' :: r) = (row ++ fs) :: parseRows [] [] r := by
  induction fs with
  | nil => exact absurd rfl hfs
  | cons f fs ih =>
    intro row r
    match fs with
    | [] =>
      rw [renderRow_single, parseRows_renderField f row '\n' r (by decide), parseRows_newline]
    | f2 :: fs2 =>
      have harr : (renderField f ++ ',' :: renderRow (f2 :: fs2)) ++ '\n' :: r
          = renderField f ++ ',' :: (renderRow (f2 :: fs2) ++ '\n' :: r) := by simp
      rw [renderRow_cons_cons, harr, parseRows_renderField f row ',' _ (by decide),
        parseRows_comma, ih (List.cons_ne_nil f2 fs2) (row ++ [f]) r]
      simp

/-- Parsing a rendered CSV text recovers exactly the rendered records. -/
theorem parseRows_renderCSV (rows : List (List String)) (h : ∀ r ∈ rows, r ≠ []) :
    parseRows [] [] (renderCSV rows) = rows := by
  induction rows with
  | nil => simp [renderCSV, parseRows_nil]
  | cons r rs ih =>
    rw [renderCSV, parseRows_renderRow r (h r (List.mem_cons_self r rs)) [] (renderCSV rs),
      ih fun x hx => h x (List.mem_cons_of_mem r hx)]
    simp

/-- A successful Year derivation: the produced rows carry the original rows
unchanged together with their parsed years. -/
theorem mapM_year_spec (py : String → Option Int) (df : List Row) :
    ∀ rows : List RowY,
      df.mapM (fun r => (py r.date).map fun y => RowY.mk r y) = some rows →
        rows.map RowY.base = df ∧ ∀ ry ∈ rows, py ry.base.date = some ry.year := by
  induction df with
  | nil =>
    intro rows h
    simp only [List.mapM_nil, Option.pure_def, Option.some.injEq] at h
    subst h
    simp
  | cons r df ih =>
    intro rows h
    rw [List.mapM_cons] at h
    match hy : py r.date with
    | none => rw [hy] at h; simp at h
    | some y =>
      rw [hy] at h
      match hrest : df.mapM (fun r => (py r.date).map fun y => RowY.mk r y) with
      | none => rw [hrest] at h; simp at h
      | some rest =>
        rw [hrest] at h
        simp at h
        obtain ⟨hbase, hall⟩ := ih rest hrest
        subst h
        refine ⟨by simp [hbase], ?_⟩
        intro ry hry
        rcases List.mem_cons.mp hry with hr | hr
        · subst hr; exact hy
        · exact hall ry hr

/-- The digit renderer `digitChar` always produces a decimal digit character. -/
theorem digitChar_isDigit (k : Nat) : (digitChar k).isDigit = true := by
  have hk : k % 10 < 10 := Nat.mod_lt _ (by norm_num)
  rw [digitChar]
  generalize hj : k % 10 = j at hk
  interval_cases j <;> decide

/-- Every rendered CSV record (header or data row) is non-empty. -/
theorem csv_rows_ne_nil (df : List Row) :
    ∀ r ∈ header6 :: df.map row_fields, r ≠ [] := by
  intro r hr
  rcases List.mem_cons.mp hr with h | h
  · subst h; simp [header6]
  · rcases List.mem_map.mp h with ⟨x, _, hx⟩
    subst hx; simp [row_fields]

/-- Every rendered Year-augmented CSV record is non-empty. -/
theorem csv_rows_y_ne_nil (df : List RowY) :
    ∀ r ∈ header7 :: df.map rowy_fields, r ≠ [] := by
  intro r hr
  rcases List.mem_cons.mp hr with h | h
  · subst h; simp [header7]
  · rcases List.mem_map.mp h with ⟨x, _, hx⟩
    subst hx; simp [rowy_fields, row_fields]

/- ======================= Claim theorems =================================== -/

/-- Claim C1: for every non-empty keyword list, the query built by
`search_patents` contains exactly one phrase-match predicate per keyword,
each matching that keyword against the `patent_abstract` field, all combined
conjunctively under the single `_and`, in the order of the input keywords. -/
theorem claim_C1 (keywords : List String) (per_page : Nat) (h : keywords ≠ []) :
    ((search_patents_request keywords per_page).q)._and.length = keywords.length ∧
    ∀ i : Nat, ((search_patents_request keywords per_page).q)._and[i]?
      = (keywords[i]?).map fun kw => { field := "patent_abstract", phrase := kw } := by
  constructor
  · simp [search_patents_request, build_query]
  · intro i
    simp [search_patents_request, build_query, List.getElem?_map]

/-- Witness for C1 at the concrete keyword list `["laser", "printer"]`. -/
theorem claim_C1_witness :
    ((search_patents_request ["laser", "printer"] 1000).q)._and.length = 2 ∧
    ((search_patents_request ["laser", "printer"] 1000).q)._and[1]?
      = some { field := "patent_abstract", phrase := "printer" } := by
  have h := claim_C1 ["laser", "printer"] 1000 (by decide)
  refine ⟨h.1, ?_⟩
  rw [h.2 1]
  rfl

/-- Claim C2: `process_patent_data` returns the empty table on zero records
(missing/null or empty `patents`), and on N records returns exactly N rows in
input order, each row holding the six fields with `""` substituted for any
absent source key. -/
theorem claim_C2 (data : RawResult) :
    ((data.patents = none ∨ data.patents = some []) → process_patent_data data = []) ∧
    ∀ ps, data.patents = some ps →
      (process_patent_data data).length = ps.length ∧
      ∀ i : Nat, (process_patent_data data)[i]? = (ps[i]?).map fun p =>
        { patentNumber := p.patent_number.getD ""
          date := p.patent_date.getD ""
          title := p.patent_title.getD ""
          country := p.patent_firstnamed_assignee_country.getD ""
          ptype := p.patent_type.getD ""
          abstract := p.patent_abstract.getD "" } := by
  constructor
  · rintro (h | h) <;> simp [process_patent_data, h]
  · intro ps hps
    match data with
    | ⟨patents⟩ =>
      cases hps
      rw [process_patent_data_some]
      constructor
      · simp
      · intro i
        rw [List.getElem?_map]
        rfl

/-- Witness for C2 at a concrete response of two records, the second missing
every key. -/
theorem claim_C2_witness :
    (process_patent_data ⟨some [⟨some "1", some "2020-05-01", some "T1", some "a b",
        some "US", some "utility"⟩, ⟨none, none, none, none, none, none⟩]⟩).length = 2 ∧
    (process_patent_data ⟨some [⟨some "1", some "2020-05-01", some "T1", some "a b",
        some "US", some "utility"⟩, ⟨none, none, none, none, none, none⟩]⟩)[1]?
      = some ⟨"", "", "", "", "", ""⟩ := by
  have h := (claim_C2 ⟨some [⟨some "1", some "2020-05-01", some "T1", some "a b",
      some "US", some "utility"⟩, ⟨none, none, none, none, none, none⟩]⟩).2 _ rfl
  refine ⟨h.1, ?_⟩
  rw [h.2 1]
  rfl

/-- Claim C3: if the network call fails (network-layer error or non-2xx), the
failure is caught inside `search_patents`: an `API Error` message is emitted,
the returned value has an empty `patents` list, and downstream normalization
proceeds with zero records — no exception crosses the fetch boundary. -/
theorem claim_C3 (keywords : List String) (per_page : Nat)
    (fetch : Request → FetchOutcome) (e : String)
    (h : fetch (search_patents_request keywords per_page) = .netError e) :
    (search_patents keywords fetch per_page).result.patents = some [] ∧
    (search_patents keywords fetch per_page).errors = ["API Error: " ++ e] ∧
    process_patent_data (search_patents keywords fetch per_page).result = [] := by
  simp [search_patents, h, process_patent_data]

/-- Witness for C3 with a fetch that always raises a connection error. -/
theorem claim_C3_witness :
    (search_patents ["laser"] (fun _ => .netError "connection refused") 1000).result.patents
      = some [] ∧
    (search_patents ["laser"] (fun _ => .netError "connection refused") 1000).errors
      = ["API Error: " ++ "connection refused"] ∧
    process_patent_data
      (search_patents ["laser"] (fun _ => .netError "connection refused") 1000).result = [] :=
  claim_C3 ["laser"] 1000 (fun _ => .netError "connection refused") "connection refused" rfl

/-- Claim C4 counterexample: the claim says every empty string arising from
the split is dropped, but for the input `"a,,b"` the keyword list of line 128
is `["a", "", "b"]` and contains the empty string. -/
theorem claim_C4_counterexample :
    main_keywords "a,,b" = ["a", "", "b"] ∧ "" ∈ main_keywords "a,,b" := by
  constructor
  · rfl
  · decide

/-- Claim C4 as amended: the keyword list is derived from the comma-separated
input by splitting on commas and trimming each piece, with exactly one
keyword per piece (one more than the number of commas) — empty pieces are
kept, not dropped. -/
theorem claim_C4_amended (s : String) :
    (main_keywords s).length = s.data.count ',' + 1 ∧
    ∀ i : Nat, (main_keywords s)[i]?
      = ((pySplitComma s.data)[i]?).map fun cs => String.mk (pyStrip cs) := by
  constructor
  · rw [main_keywords, List.length_map, pySplitComma_length]
  · intro i
    rw [main_keywords, List.getElem?_map]

/-- Claim C5: an unparsable Date is unhandled during Year derivation — for a
concrete table holding one, `create_visualizations` fails with an uncaught
fault (`Except.error`), so none of the yearly chart, country chart, word
cloud, or the subsequent CSV export of `main` is produced. -/
theorem claim_C5 :
    create_visualizations parse_year []
        [⟨"1", "not-a-date", "T", "US", "utility", "an abstract"⟩]
      = .error "unparsable date in Date column" ∧
    main_render parse_year [] ⟨2020, 1, 1, 0, 0, 0⟩
        [⟨"1", "not-a-date", "T", "US", "utility", "an abstract"⟩]
      = .error "unparsable date in Date column" :=
  ⟨rfl, rfl⟩

/-- Claim C6: the top-10-country derivation returns at most 10 entries with
pairwise-distinct countries, and each entry's count is the exact number of
rows of the table whose Country field equals that country. -/
theorem claim_C6 (df : List Row) :
    (top10_countries df).length ≤ 10 ∧
    ((top10_countries df).map Prod.fst).Nodup ∧
    ∀ p : String × Nat, p ∈ top10_countries df →
      p.2 = df.countP fun r => r.country == p.1 := by
  refine ⟨?_, ?_, ?_⟩
  · rw [top10_countries]
    exact List.length_take_le 10 _
  · rw [top10_countries]
    have hsub := (List.take_sublist 10 (value_counts (df.map Row.country))).map Prod.fst
    exact (value_counts_keys_nodup (df.map Row.country)).sublist hsub
  · intro p hp
    have hp2 : p ∈ value_counts (df.map Row.country) :=
      List.mem_of_mem_take (by rw [top10_countries] at hp; exact hp)
    rw [value_counts_count (df.map Row.country) p hp2]
    generalize df = l
    induction l with
    | nil => rfl
    | cons r l ih =>
      rw [List.map_cons, List.count_cons, List.countP_cons, ih]

/-- Witness for C6 at a concrete three-row table with two US rows. -/
theorem claim_C6_witness :
    (("US", 2) : String × Nat).2
      = ([⟨"1", "", "", "US", "", ""⟩, ⟨"2", "", "", "KR", "", ""⟩,
          ⟨"3", "", "", "US", "", ""⟩] : List Row).countP
          (fun r => r.country == ("US", 2).1) :=
  (claim_C6 [⟨"1", "", "", "US", "", ""⟩, ⟨"2", "", "", "KR", "", ""⟩,
      ⟨"3", "", "", "US", "", ""⟩]).2.2 ("US", 2) (by decide)

/-- Claim C7: serializing a normalized table to CSV and re-parsing the CSV
text recovers the same six columns and row values, as strings, in the same
order. -/
theorem claim_C7 (df : List Row) :
    parse_csv (to_csv df) = header6 :: df.map row_fields := by
  rw [to_csv, parse_csv]
  exact parseRows_renderCSV _ (csv_rows_ne_nil df)

/-- Claim C8: the word-corpus construction is deterministic — running it
twice on the same table yields the identical token sequence. -/
theorem claim_C8 (english_stop_words : List String) (df : List Row) :
    word_corpus english_stop_words df = word_corpus english_stop_words df := rfl

/-- Claim C9: the download artifact is the UTF-8 encoding of the CSV text,
its file name is `patents_` + an 8-digit date + `_` + a 6-digit time +
`.csv` (seconds-resolution timestamp of the generation time), and the CSV's
columns are exactly the six normalized fields plus Year. -/
theorem claim_C9 (now : Timestamp) (df : List RowY) :
    (mk_download now df).file_name
      = "patents_" ++ date_str now ++ "_" ++ time_str now ++ ".csv" ∧
    (date_str now).length = 8 ∧
    (time_str now).length = 6 ∧
    (date_str now).data.all Char.isDigit = true ∧
    (time_str now).data.all Char.isDigit = true ∧
    (mk_download now df).data = (to_csv_y df).toUTF8 ∧
    (mk_download now df).mime = "text/csv" ∧
    parse_csv (to_csv_y df) = header7 :: df.map rowy_fields := by
  refine ⟨rfl, ?_, ?_, ?_, ?_, rfl, rfl, ?_⟩
  · simp [date_str, digits4, digits2, String.length]
  · simp [time_str, digits2, String.length]
  · simp [date_str, digits4, digits2, digitChar_isDigit]
  · simp [time_str, digits2, digitChar_isDigit]
  · rw [to_csv_y, parse_csv]
    exact parseRows_renderCSV _ (csv_rows_y_ne_nil df)

/-- Claim C10: when `create_visualizations` succeeds it mutates the shared
dataframe — its resulting table is the caller's table with a Year column
added and the six original columns unchanged — and the CSV later exported by
`main` is built from that same mutated table, so it sees the Year column. -/
theorem claim_C10 (py : String → Option Int) (english_stop_words : List String)
    (df : List Row) (out : RenderOutput)
    (h : create_visualizations py english_stop_words df = .ok out) :
    out.table.map RowY.base = df ∧
    (∀ ry ∈ out.table, py ry.base.date = some ry.year) ∧
    ∀ now : Timestamp,
      main_render py english_stop_words now df = .ok (out, mk_download now out.table) ∧
      (mk_download now out.table).data = (to_csv_y out.table).toUTF8 := by
  have h0 := h
  rw [create_visualizations] at h
  cases hm : df.mapM (fun r => (py r.date).map fun y => RowY.mk r y) with
  | none => rw [hm] at h; exact absurd h (by simp)
  | some rows =>
    rw [hm] at h
    simp only [Except.ok.injEq] at h
    obtain ⟨hbase, hall⟩ := mapM_year_spec py df rows hm
    subst h
    refine ⟨hbase, hall, ?_⟩
    intro now
    rw [main_render, h0]
    exact ⟨rfl, rfl⟩

/-- Witness for C10 at a concrete one-row table with a parsable date. -/
theorem claim_C10_witness :
    (RenderOutput.mk [⟨⟨"1", "2020-05-01", "T1", "US", "utility", "a b"⟩, 2020⟩]
        [(2020, 1)] [("US", 1)] ["a", "b"]).table.map RowY.base
      = [⟨"1", "2020-05-01", "T1", "US", "utility", "a b"⟩] ∧
    main_render parse_year [] ⟨2026, 1, 2, 3, 4, 5⟩
        [⟨"1", "2020-05-01", "T1", "US", "utility", "a b"⟩]
      = .ok (RenderOutput.mk [⟨⟨"1", "2020-05-01", "T1", "US", "utility", "a b"⟩, 2020⟩]
          [(2020, 1)] [("US", 1)] ["a", "b"],
        mk_download ⟨2026, 1, 2, 3, 4, 5⟩
          [⟨⟨"1", "2020-05-01", "T1", "US", "utility", "a b"⟩, 2020⟩]) := by
  have h := claim_C10 parse_year [] [⟨"1", "2020-05-01", "T1", "US", "utility", "a b"⟩]
    (RenderOutput.mk [⟨⟨"1", "2020-05-01", "T1", "US", "utility", "a b"⟩, 2020⟩]
        [(2020, 1)] [("US", 1)] ["a", "b"]) rfl
  exact ⟨h.1, (h.2.2 ⟨2026, 1, 2, 3, 4, 5⟩).1⟩
